import Mathlib

/-!
Verification development for the response-interpretation layer of the
sublime-ycmd completion client, covering `lib/schema/completions.py` and
`lib/util/fs.py`.

The Python code is shallowly embedded:
* JSON payloads become the `JValue` inductive; Python `dict.get` becomes an
  association-list lookup.
* Python exceptions become the `PyErr` enumeration; a fallible Python
  function becomes a Lean function into `Except PyErr _`.  All constructors
  of `PyErr` model exception classes derived from Python `Exception`, so a
  bare `except Exception` clause catches every `PyErr`.
* `logger.warning` / `logger.error` side effects become explicit
  `LogLevel` event lists returned alongside results (debug-level logging is
  not modelled).
* The platform of record is POSIX (`os.sep = '/'`, `os.altsep = None`,
  `os.name != 'nt'`, `os.pathsep = ':'`); `resolve_binary_path` is
  additionally parameterised over the platform pieces it touches so that the
  Windows suffix ordering can be stated.
* String processing is done on `List Char` with structural recursions so
  that every definition evaluates inside the kernel.
-/

/-- Python exception classes raised by the embedded code.  Every constructor
models a class deriving from `Exception`. -/
inductive PyErr where
  | typeError
  | valueError
  | keyError
  | attributeError
  | assertionError
  | notImplementedError
deriving DecidableEq, Repr

/-- Logging levels of the events the code emits via `logger.warning` and
`logger.error`.  (`logger.debug` calls are not modelled.) -/
inductive LogLevel where
  | warning
  | error
deriving DecidableEq, Repr

/-! ### Character/list utilities (Python `str` semantics on `List Char`) -/

/-- Membership of a character in a character list (Python `c in s`). -/
def charMem (c : Char) : List Char → Bool
  | [] => false
  | x :: xs => x == c || charMem c xs

/-- Python `str.startswith` on character lists. -/
def isPrefixC : List Char → List Char → Bool
  | [], _ => true
  | _ :: _, [] => false
  | a :: as, b :: bs => a == b && isPrefixC as bs

/-- Python `needle in hay` substring test on character lists. -/
def isInfixC (needle : List Char) : List Char → Bool
  | [] => needle.isEmpty
  | c :: cs => isPrefixC needle (c :: cs) || isInfixC needle cs

/-- The characters for which Python `str.isspace()` is true (CPython's
Unicode whitespace table): U+0009-U+000D, U+001C-U+001F, U+0020, U+0085,
U+00A0, U+1680, U+2000-U+200A, U+2028, U+2029, U+202F, U+205F and U+3000.
(U+180E is excluded: it stopped being whitespace in Unicode 6.3 /
Python 3.4.) -/
def pyWhitespace : List Char :=
  ['\t', '\n', '\x0b', '\x0c', '\r', '\x1c', '\x1d', '\x1e', '\x1f', ' ',
   '\x85', '\xa0', '\u1680',
   '\u2000', '\u2001', '\u2002', '\u2003', '\u2004', '\u2005', '\u2006',
   '\u2007', '\u2008', '\u2009', '\u200a',
   '\u2028', '\u2029', '\u202f', '\u205f', '\u3000']

/-- Characters stripped by Python `str.strip()`: exactly those satisfying
`str.isspace()`. -/
def isPySpace (c : Char) : Bool :=
  charMem c pyWhitespace

/-- Python `str.strip()`: drop leading and trailing whitespace. -/
def pyStrip (cs : List Char) : List Char :=
  ((cs.dropWhile isPySpace).reverse.dropWhile isPySpace).reverse

/-- Python `str.split(sep)` for a single-character separator.  The empty
string splits to `[""]`, matching Python. -/
def pySplitChar (sep : Char) : List Char → List (List Char)
  | [] => [[]]
  | c :: cs =>
    if c = sep then [] :: pySplitChar sep cs
    else
      match pySplitChar sep cs with
      | [] => [[c]]
      | g :: gs => (c :: g) :: gs

/-- Index just past the last occurrence of `c`, i.e. `str.rfind(c)` as an
`Option` (`none` when absent). -/
def lastIdxOf (c : Char) : List Char → Option Nat
  | [] => none
  | x :: xs =>
    match lastIdxOf c xs with
    | some i => some (i + 1)
    | none => if x == c then some 0 else none

/-- Index of the first newline (list length when there is none).  Regex `.`
does not match a newline, so `re.match` can only consume characters before
this position. -/
def firstNewlinePos : List Char → Nat
  | [] => 0
  | c :: cs => if c = '\n' then 0 else firstNewlinePos cs + 1

/-- Python `str.lower()` (ASCII). -/
def lowerStr (s : String) : String :=
  String.mk (s.toList.map Char.toLower)

/-- Decimal digits of a natural number, via explicit fuel so the recursion
is structural and kernel-reducible. -/
def natToCharsAux : Nat → Nat → List Char
  | 0, _ => []
  | fuel + 1, n =>
    if n < 10 then [Nat.digitChar n]
    else natToCharsAux fuel (n / 10) ++ [Nat.digitChar (n % 10)]

/-- Decimal rendering of a natural number (Python `str(n)` for `n ≥ 0`). -/
def natToStr (n : Nat) : String :=
  String.mk (natToCharsAux (n + 1) n)

/-- Decimal rendering of an integer (Python `str(n)`). -/
def intToStr (n : Int) : String :=
  if n < 0 then "-" ++ natToStr n.natAbs else natToStr n.natAbs

/-- `sep.join(items)` on character lists. -/
def intercalateC (sep : List Char) : List (List Char) → List Char
  | [] => []
  | [x] => x
  | x :: y :: xs => x ++ sep ++ intercalateC sep (y :: xs)

/-- `sep.join(items)` on strings. -/
def intercalateStr (sep : String) : List String → String
  | [] => ""
  | [x] => x
  | x :: y :: xs => x ++ sep ++ intercalateStr sep (y :: xs)

/-! ### JSON values -/

/-- A decoded JSON value (Python object produced by `json.loads`, or passed
in directly as a `dict`).  Numbers are modelled as integers; no claim
touches floating-point payloads. -/
inductive JValue where
  | null
  | bool (b : Bool)
  | num (n : Int)
  | str (s : String)
  | arr (items : List JValue)
  | obj (fields : List (String × JValue))

/-- Python truthiness of a decoded JSON value. -/
def truthy : JValue → Bool
  | .null => false
  | .bool b => b
  | .num n => n != 0
  | .str s => !s.toList.isEmpty
  | .arr items => !items.isEmpty
  | .obj fields => !fields.isEmpty

/-- Python truthiness where `none` models Python `None`. -/
def truthyOpt : Option JValue → Bool
  | none => false
  | some v => truthy v

/-- `dict.get(key, None)`: association-list lookup (keys of a decoded JSON
object are unique). -/
def lookupJ (fields : List (String × JValue)) (key : String) : Option JValue :=
  match fields with
  | [] => none
  | (k, v) :: rest => if k = key then some v else lookupJ rest key

/-- The fields of an object value (`[]` for non-objects); proof-side
extractor used to state what the parser builds. -/
def JValue.objFields : JValue → List (String × JValue)
  | .obj fields => fields
  | _ => []

/-- Is the value a JSON object (Python `isinstance(x, dict)`)? -/
def isObjB : JValue → Bool
  | .obj _ => true
  | _ => false

/-- Is the value a JSON string (Python `isinstance(x, str)`)? -/
def isStrB : JValue → Bool
  | .str _ => true
  | _ => false

mutual

/-- Python `repr` of a decoded JSON value (string escaping inside nested
reprs is not reproduced; no claim evaluates it). -/
def pyRepr : JValue → String
  | .null => "None"
  | .bool true => "True"
  | .bool false => "False"
  | .num n => intToStr n
  | .str s => "'" ++ s ++ "'"
  | .arr items => "[" ++ pyReprList items ++ "]"
  | .obj fields => "\x7b" ++ pyReprFields fields ++ "\x7d"

/-- `', '.join(map(repr, items))`. -/
def pyReprList : List JValue → String
  | [] => ""
  | [x] => pyRepr x
  | x :: y :: xs => pyRepr x ++ ", " ++ pyReprList (y :: xs)

/-- Comma-joined `repr` of dict items. -/
def pyReprFields : List (String × JValue) → String
  | [] => ""
  | [(k, v)] => "'" ++ k ++ "': " ++ pyRepr v
  | (k, v) :: y :: xs => "'" ++ k ++ "': " ++ pyRepr v ++ ", " ++ pyReprFields (y :: xs)

end

/-- Python `str(x)` of a decoded JSON value (`str` and `repr` agree except
on strings). -/
def pyStr : JValue → String
  | .str s => s
  | v => pyRepr v

/-! ### Schema data model (`lib/schema/completions.py`) -/

/-- `CompletionOption.__init__`: one candidate completion.  Fields are the
raw decoded JSON values that `_parse_completion_option` pulls out with
`node.get(..., None)`; `file_types` comes from the typed request-parameter
context. -/
structure CompletionOption where
  menu_info : Option JValue
  insertion_text : Option JValue
  extra_data : Option JValue
  detailed_info : Option JValue
  file_types : Option (List String)
  menu_text : Option JValue
  kind : Option JValue

/-- `Completions.__init__`: ordered collection of options plus the start
column, both `None`-able constructor parameters. -/
structure Completions where
  completion_options : Option (List CompletionOption)
  start_column : Option JValue

/-- `DiagnosticError.__init__`: one diagnostic entry. -/
structure DiagnosticError where
  exception_type : Option JValue
  message : Option JValue
  traceback : Option JValue
  file_types : Option (List String)

/-- `Diagnostics.__init__`: wrapper holding `None` or the entry list. -/
structure Diagnostics where
  diagnostics : Option (List DiagnosticError)

/-- `CompletionResponse.__init__`: completions and diagnostics halves. -/
structure CompletionResponse where
  completions : Option Completions
  diagnostics : Option Diagnostics

/-! ### `CompletionOption.text` and its regexes -/

/-- `re.match(r".*\(.*\)", s) is not None`, specialised to this pattern: a
match is a prefix `A ++ "(" ++ B ++ ")"` where `A`, `B` are newline-free, so
the test succeeds iff some '(' strictly precedes some ')' before the first
newline. -/
def hasOpenClose : List Char → Bool
  | [] => false
  | c :: cs => if c = '(' then charMem ')' cs else hasOpenClose cs

/-- `re.match(r".*\(.*\)", s) is not None`. -/
def isFuncMatch (cs : List Char) : Bool :=
  hasOpenClose (cs.take (firstNewlinePos cs))

/-- Capture group of `re.match(r".*\((.+)\)", s)`.  Both quantifiers are
greedy, so the engine selects the rightmost '(' that still leaves a
non-empty body closed by a ')' (necessarily the rightmost ')'), all before
the first newline. -/
def group1? (cs : List Char) : Option (List Char) :=
  let pre := cs.take (firstNewlinePos cs)
  match lastIdxOf ')' pre with
  | none => none
  | some qg =>
    match lastIdxOf '(' (pre.take (qg - 1)) with
    | none => none
    | some p => some ((pre.drop (p + 1)).take (qg - p - 1))

/-- The loop body of `CompletionOption.text`: number each comma-separated
parameter and wrap it as a snippet placeholder
`'${' + str(count) + ':' + param.strip() + '}'`. -/
def placeholdersFrom : Nat → List (List Char) → List String
  | _, [] => []
  | n, p :: ps =>
    ("$\x7b" ++ natToStr n ++ ":" ++ String.mk (pyStrip p) ++ "\x7d")
      :: placeholdersFrom (n + 1) ps

/-- `param_list` as built by `CompletionOption.text` from the menu text:
split the capture group on ',' and wrap each stripped piece (empty when the
second regex does not match). -/
def paramList (cs : List Char) : List String :=
  match group1? cs with
  | none => []
  | some g => placeholdersFrom 1 (pySplitChar ',' g)

/-- `CompletionOption.text`.  The result is a `JValue` because the
non-function branch returns the raw `insertion_text` object; `re.match` on a
truthy non-string menu text raises `TypeError`, as does concatenating a
non-string insertion text with `'('`. -/
def CompletionOption.text (o : CompletionOption) : Except PyErr JValue :=
  let stE : Except PyErr (Bool × List String) :=
    match o.menu_text with
    | some v =>
      if truthy v then
        match v with
        | .str mt => .ok (isFuncMatch mt.toList, paramList mt.toList)
        | _ => .error .typeError
      else .ok (false, [])
    | none => .ok (false, [])
  match stE with
  | .error e => .error e
  | .ok (is_func, param_list) =>
    if truthyOpt o.insertion_text = false then
      -- logger.error('completion option is not initialized')
      .ok (.str "")
    else if is_func then
      match o.insertion_text with
      | some (.str itx) =>
        .ok (.str (itx ++ "(" ++ intercalateStr ", " param_list ++ ")"))
      | _ => .error .typeError
    else .ok (o.insertion_text.getD .null)

/-! ### `shortdesc` classifier chain -/

/-- The branch structure of `_shortdesc_common` after its assertion, over a
`None`-or-`str` menu info.  String constants are the `SHORTDESC_*` values
from the source. -/
def shortdescCommonCore (mi : Option String) (kind : Option JValue) : Option String :=
  if (match mi with | none => true | some s => s.toList.isEmpty) && !truthyOpt kind then
    some "?"  -- SHORTDESC_UNKNOWN
  else if (match mi with | some s => s == "[ID]" | none => false) then
    some "ident"  -- SHORTDESC_IDENTIFIER
  else
    match kind with
    | some k =>
      if truthy k then
        if lowerStr (pyStr k) = "class" then some "class"  -- SHORTDESC_TYPE_CLASS
        else if lowerStr (pyStr k) = "macro" then some "macro"  -- SHORTDESC_MACRO
        else none
      else none
    | none => none

/-- `_shortdesc_common`: asserts the menu info is `None` or a `str`, then
runs the common classifier tiers. -/
def shortdescCommon (mi kind : Option JValue) : Except PyErr (Option String) :=
  match mi with
  | none => .ok (shortdescCommonCore none kind)
  | some (.str s) => .ok (shortdescCommonCore (some s) kind)
  | some _ => .error .assertionError

/-- `_shortdesc_cpp`: `'[ID]'` when no kind, else `kind.lower()` (an
`AttributeError` when the kind is a truthy non-string). -/
def shortdescCpp (_mi kind : Option JValue) : Except PyErr (Option String) :=
  if truthyOpt kind = false then .ok (some "[ID]")
  else
    match kind with
    | some (.str k) => .ok (some (lowerStr k))
    | _ => .error .attributeError

/-- `_shortdesc_python`: asserts the menu info is a `str`, then matches its
prefix/content. -/
def shortdescPython (mi _kind : Option JValue) : Except PyErr (Option String) :=
  match mi with
  | some (.str m) =>
    .ok
      (if isInfixC " = ".toList m.toList || isPrefixC "instance".toList m.toList then
        some "attr"  -- SHORTDESC_ATTRIBUTE
      else if isPrefixC "keyword".toList m.toList then some "keywd"  -- SHORTDESC_KEYWORD
      else if isPrefixC "def".toList m.toList then some "fn"  -- SHORTDESC_FUNCTION
      else if isPrefixC "module".toList m.toList then some "mod"  -- SHORTDESC_MODULE
      else if isPrefixC "class".toList m.toList then some "class"  -- SHORTDESC_TYPE_CLASS
      else none)
  | _ => .error .assertionError

/-- `_shortdesc_javascript`: asserts the menu info is a `str`, then matches
it. -/
def shortdescJavascript (mi _kind : Option JValue) : Except PyErr (Option String) :=
  match mi with
  | some (.str m) =>
    .ok
      (if m = "?" then some "?"  -- SHORTDESC_UNKNOWN
      else if isPrefixC "fn".toList m.toList then some "fn"  -- SHORTDESC_FUNCTION
      else if m = "string" then some "str"  -- SHORTDESC_TYPE_STRING
      else if m = "number" then some "num"  -- SHORTDESC_TYPE_NUMBER
      else none)
  | _ => .error .assertionError

/-- `CompletionOption._has_file_type`: `False` for a `None` or empty file
type list, else membership. -/
def CompletionOption.hasFileType (o : CompletionOption) (ft : String) : Bool :=
  match o.file_types with
  | none => false
  | some fts => if fts.isEmpty then false else fts.contains ft

/-- The `shortdesc_handlers` dict, in CPython insertion order ('cpp',
'python', 'javascript'): dicts preserve insertion order, so the "technically
non-deterministic" iteration the source comments on is in fact this fixed
order. -/
def shortdescHandlers :
    List (String × (Option JValue → Option JValue → Except PyErr (Option String))) :=
  [("cpp", shortdescCpp), ("python", shortdescPython), ("javascript", shortdescJavascript)]

/-- The `for file_type, shortdesc_handler in shortdesc_handlers.items()`
loop: first verdict wins; falling off the loop returns the raw menu info. -/
def tryShortdescHandlers (o : CompletionOption) (mi kind : Option JValue) :
    List (String × (Option JValue → Option JValue → Except PyErr (Option String))) →
    Except PyErr (Option JValue)
  | [] => .ok mi
  | (ft, handler) :: rest =>
    if o.hasFileType ft then
      match handler mi kind with
      | .error e => .error e
      | .ok (some s) => .ok (some (.str s))
      | .ok none => tryShortdescHandlers o mi kind rest
    else tryShortdescHandlers o mi kind rest

/-- `CompletionOption.shortdesc`: common tier first, then the per-language
handlers, then the raw menu info as fallback.  The result is an
`Option JValue` because the fallback returns whatever `_menu_info` holds
(possibly `None`). -/
def CompletionOption.shortdesc (o : CompletionOption) : Except PyErr (Option JValue) :=
  match shortdescCommon o.menu_info o.kind with
  | .error e => .error e
  | .ok (some s) => .ok (some (.str s))
  | .ok none => tryShortdescHandlers o o.menu_info o.kind shortdescHandlers

/-! ### `DiagnosticError` predicates -/

/-- Python `x == "lit"` for a field holding a decoded JSON value: true only
for the equal string. -/
def optIsStr (v : Option JValue) (s : String) : Bool :=
  match v with
  | some (.str t) => t = s
  | _ => false

/-- `DiagnosticError.is_unknown_extra_conf`. -/
def DiagnosticError.isUnknownExtraConf (d : DiagnosticError) : Bool :=
  optIsStr d.exception_type "UnknownExtraConf"  -- DiagnosticError.UNKNOWN_EXTRA_CONF

/-- `DiagnosticError.is_runtime_error`. -/
def DiagnosticError.isRuntimeError (d : DiagnosticError) : Bool :=
  optIsStr d.exception_type "RuntimeError"  -- DiagnosticError.RUNTIME_ERROR

/-- `DiagnosticError.is_compile_flag_missing_error`: asserts the entry is a
runtime error, then evaluates `self._message and 'no compile flags' in
self._message` (Python `and` returns the falsy message unchanged; `in` on a
non-iterable message raises `TypeError`). -/
def DiagnosticError.isCompileFlagMissingError (d : DiagnosticError) : Except PyErr JValue :=
  if d.isRuntimeError = false then .error .assertionError
  else
    match d.message with
    | none => .ok .null
    | some m =>
      if truthy m = false then .ok m
      else
        match m with
        | .str s => .ok (.bool (isInfixC "no compile flags".toList s.toList))
        | .arr items =>
          .ok (.bool (items.any (fun x =>
            match x with
            | .str t => t == "no compile flags"
            | _ => false)))
        | .obj fields => .ok (.bool (fields.any (fun kv => kv.1 == "no compile flags")))
        | _ => .error .typeError

/-! ### Response parsing pipeline -/

/-- The raw input accepted by `_parse_json_response`.
`text` covers `str`/`bytes` input: the outcome of decoding it is carried
abstractly.  Modelled from the spec: `json_parse` (`lib/util/format`, not
part of the excerpt) decodes a JSON-encoded string or byte sequence, either
producing a decoded value or raising (malformed JSON raises
`json.JSONDecodeError`, a `ValueError` subclass).  `mapping` is an
already-decoded `dict` (defensively copied by the source; copying has no
observable effect here).  `other` is any value of another type. -/
inductive RawInput where
  | text (result : Except PyErr JValue)
  | mapping (fields : List (String × JValue))
  | other

/-- The optional `request_parameters` argument.  Modelled from the spec: a
`RequestParameters` object (`lib/schema/request`, not part of the excerpt)
carries the originating file's language-tag list via its `file_types`
attribute.  `invalid` is any value that is not `None` and not a
`RequestParameters` instance. -/
inductive ReqArg where
  | noParams
  | params (fileTypes : Option (List String))
  | invalid
deriving DecidableEq

/-- `request_parameters.file_types if request_parameters else None`. -/
def ReqArg.fileTypesOf : ReqArg → Option (List String)
  | .noParams => none
  | .params fts => fts
  | .invalid => none

/-- `_is_error_list` / `_is_completions`: a list whose elements are all
dicts. -/
def isDictList (v : JValue) : Bool :=
  match v with
  | .arr items => items.all isObjB
  | _ => false

/-- The two shape checks of `_parse_json_response` on the decoded dict:
`'errors' not in parsed_json or not _is_error_list(...)` (gated on
`ignore_errors`) and `'completions' not in parsed_json or not
_is_completions(...)` (always). -/
def parseJsonChecks (parsed_json : List (String × JValue)) (ignore_errors : Bool) :
    Except PyErr (List (String × JValue)) :=
  if !ignore_errors &&
      !(match lookupJ parsed_json "errors" with
        | some errs => isDictList errs
        | none => false) then
    .error .valueError  -- 'json is missing "errors" list'
  else if !(match lookupJ parsed_json "completions" with
        | some comps => isDictList comps
        | none => false) then
    .error .valueError  -- 'json is missing "completions" list'
  else .ok parsed_json

/-- `_parse_json_response`: type-check the raw input, decode it, assert the
decoded value is a dict, then run the shape checks. -/
def parseJsonResponse (raw : RawInput) (ignore_errors : Bool) :
    Except PyErr (List (String × JValue)) :=
  match raw with
  | .other => .error .typeError  -- raise TypeError('json must be a str or dict')
  | .text (.error e) => .error e  -- json_parse raised
  | .text (.ok v) =>
    (match v with
    | .obj fields => parseJsonChecks fields ignore_errors
    | _ => .error .assertionError)  -- assert isinstance(parsed_json, dict)
  | .mapping fields => parseJsonChecks fields ignore_errors  -- json.copy()

/-- The field extraction of `_parse_completion_option` on a dict node. -/
def mkCompletionOption (node : List (String × JValue)) (fts : Option (List String)) :
    CompletionOption :=
  { menu_info := lookupJ node "extra_menu_info"
    insertion_text := lookupJ node "insertion_text"
    extra_data := lookupJ node "extra_data"
    detailed_info := lookupJ node "detailed_info"
    file_types := fts
    menu_text := lookupJ node "menu_text"
    kind := lookupJ node "kind" }

/-- `_parse_completion_option`: assert the node is a dict, then extract its
fields. -/
def parseCompletionOption (node : JValue) (fts : Option (List String)) :
    Except PyErr CompletionOption :=
  match node with
  | .obj fields => .ok (mkCompletionOption fields fts)
  | _ => .error .assertionError  -- assert isinstance(node, dict)

/-- The `list(_parse_completion_option(o, ...) for o in json_completions)`
comprehension. -/
def parseOptionsList (nodes : List JValue) (fts : Option (List String)) :
    Except PyErr (List CompletionOption) :=
  match nodes with
  | [] => .ok []
  | n :: rest =>
    match parseCompletionOption n fts with
    | .error e => .error e
    | .ok o =>
      match parseOptionsList rest fts with
      | .error e => .error e
      | .ok os => .ok (o :: os)

/-- `parse_compoptions`: validate (ignoring the `errors` shape), check the
request-parameter type, read `completions` and `completion_start_column`
(the latter was never validated, so a missing key raises `KeyError`), and
build the `Completions` collection in input order. -/
def parseCompoptions (raw : RawInput) (rp : ReqArg) : Except PyErr Completions :=
  match parseJsonResponse raw true with
  | .error e => .error e
  | .ok json =>
    match rp with
    | .invalid => .error .typeError  -- raise TypeError('request parameters must be ...')
    | _ =>
      match lookupJ json "completions" with
      | none => .error .keyError  -- unreachable: key validated above
      | some json_completions =>
        match lookupJ json "completion_start_column" with
        | none => .error .keyError  -- json['completion_start_column'] on a missing key
        | some json_start_column =>
          match json_completions with
          | .arr nodes =>
            (match parseOptionsList nodes rp.fileTypesOf with
            | .error e => .error e
            | .ok completion_options =>
              .ok { completion_options := some completion_options,
                    start_column := some json_start_column })
          | _ => .error .typeError  -- unreachable: validated as a list of dicts

/-- `exc.get('TYPE') if exc else None` (an `AttributeError` when `exception`
is a truthy non-dict). -/
def excTypeOf : Option JValue → Except PyErr (Option JValue)
  | none => .ok none
  | some exc =>
    if truthy exc then
      match exc with
      | .obj excFields => .ok (lookupJ excFields "TYPE")
      | _ => .error .attributeError  -- exc.get on a non-dict
    else .ok none

/-- `_parse_diagnostic`: assert the node is a dict, evaluate
`exc.get('TYPE') if exc else None`, and construct the entry only when the
type tag is truthy; otherwise raise `NotImplementedError`.  The `file_types`
argument is accepted but never forwarded to `DiagnosticError`. -/
def parseDiagnostic (node : JValue) (_fts : Option (List String)) :
    Except PyErr DiagnosticError :=
  match node with
  | .obj fields =>
    (match excTypeOf (lookupJ fields "exception") with
    | .error e => .error e
    | .ok exception_type =>
      if truthyOpt exception_type then
        .ok { exception_type := exception_type, message := lookupJ fields "message",
              traceback := lookupJ fields "traceback", file_types := none }
      else
        .error .notImplementedError)  -- 'diagnostic does not have exception type'
  | _ => .error .assertionError  -- assert isinstance(node, dict)

/-- `_try_parse_diagnostic`: the per-node `except` cascade.  `ValueError`
and `NotImplementedError` log a warning; any other `Exception` logs an
error; every failure yields `None` so the node is skipped. -/
def tryParseDiagnostic (node : JValue) (fts : Option (List String)) :
    Option DiagnosticError × List LogLevel :=
  match parseDiagnostic node fts with
  | .ok d => (some d, [])
  | .error .valueError => (none, [.warning])
  | .error .notImplementedError => (none, [.warning])
  | .error _ => (none, [.error])

/-- The `_iter_diagnostics` generator: parse each node, keeping the truthy
results (a constructed `DiagnosticError` is always truthy: the class defines
no `__bool__`). -/
def parseDiagList (nodes : List JValue) (fts : Option (List String)) :
    List DiagnosticError × List LogLevel :=
  match nodes with
  | [] => ([], [])
  | n :: rest =>
    let here := tryParseDiagnostic n fts
    let there := parseDiagList rest fts
    match here.1 with
    | some d => (d :: there.1, here.2 ++ there.2)
    | none => (there.1, here.2 ++ there.2)

/-- `parse_diagnostics`: full validation (both shape checks), the
request-parameter type check, then `json.get('errors', [])`; a falsy errors
list yields the explicit no-diagnostics wrapper, otherwise each node is
parsed best-effort in input order. -/
def parseDiagnostics (raw : RawInput) (rp : ReqArg) :
    Except PyErr (Diagnostics × List LogLevel) :=
  match parseJsonResponse raw false with
  | .error e => .error e
  | .ok json =>
    match rp with
    | .invalid => .error .typeError  -- raise TypeError('request parameters must be ...')
    | _ =>
      let json_errors := (lookupJ json "errors").getD (.arr [])
      if truthy json_errors = false then
        .ok ({ diagnostics := none }, [])  -- 'no errors or diagnostics to report'
      else
        match json_errors with
        | .arr nodes =>
          (let parsed := parseDiagList nodes rp.fileTypesOf
          .ok ({ diagnostics := some parsed.1 }, parsed.2))
        | _ => .error .typeError  -- unreachable: validated as a list of dicts

/-- The `_attempt_parse` `except` cascade of `parse_completions`:
`ValueError` and `NotImplementedError` log a warning, any other `Exception`
logs an error, and every failure downgrades the result to `None`. -/
def attemptParse {α : Type} (r : Except PyErr α) : Option α × List LogLevel :=
  match r with
  | .ok v => (some v, [])
  | .error .valueError => (none, [.warning])
  | .error .notImplementedError => (none, [.warning])
  | .error _ => (none, [.error])

/-- `parse_completions` (the spec's `parse_all`): attempt each sub-parse
independently and assemble whatever survived into a `CompletionResponse`,
together with every logged event.  The function is total: all failure modes
of the sub-parsers are `PyErr` values, and `attemptParse` handles every one
of them. -/
def parseCompletions (raw : RawInput) (rp : ReqArg) :
    CompletionResponse × List LogLevel :=
  let compHalf := attemptParse (parseCompoptions raw rp)
  let diagHalf := attemptParse (parseDiagnostics raw rp)
  let diagResult : Option Diagnostics := diagHalf.1.map Prod.fst
  let diagEvents : List LogLevel :=
    (match diagHalf.1 with
    | some (_, ev) => ev
    | none => []) ++ diagHalf.2
  ({ completions := compHalf.1, diagnostics := diagResult },
    compHalf.2 ++ diagEvents)

/-! ### Spec-side descriptions used to state the claims -/

/-- Spec side: the event level the claim assigns to a sub-parse failure —
warning for a value error or unsupported-format error, error otherwise. -/
def specLevel (e : PyErr) : LogLevel :=
  if e = .valueError ∨ e = .notImplementedError then .warning else .error

/-- Spec side: the events of one attempted sub-parse. -/
def specEvents {α : Type} : Except PyErr α → List LogLevel
  | .ok _ => []
  | .error e => [specLevel e]

/-- Spec side: the events of the diagnostics half, including the per-node
events of a successful parse. -/
def specEventsDiag : Except PyErr (Diagnostics × List LogLevel) → List LogLevel
  | .ok (_, ev) => ev
  | .error e => [specLevel e]

/-- Spec side: numbered snippet placeholders `${1:arg1}, ${2:arg2}, ...`
rendered directly from the (already clean) argument list. -/
def specPlaceholders : Nat → List (List Char) → List String
  | _, [] => []
  | n, a :: as =>
    ("$\x7b" ++ natToStr n ++ ":" ++ String.mk a ++ "\x7d") :: specPlaceholders (n + 1) as

/-- Spec side: the claimed insertion text for a function-call menu text. -/
def specFuncText (it : String) (args : List (List Char)) : String :=
  it ++ "(" ++ intercalateStr ", " (specPlaceholders 1 args) ++ ")"

/-- A canonical function-call menu text `name(arg1, arg2, ...)`: arguments
joined by `", "` after the name. -/
def specFuncMenuText (nameC : List Char) (args : List (List Char)) : List Char :=
  nameC ++ '(' :: (intercalateC [',', ' '] args ++ [')'])

/-- One argument of a canonical function-call menu text: non-empty, free of
commas, parentheses and newlines, and with no surrounding whitespace. -/
def specArgOk (a : List Char) : Bool :=
  !a.isEmpty && !charMem ',' a && !charMem '(' a && !charMem ')' a &&
    !charMem '\n' a && !isPySpace (a.headD ' ') && !isPySpace (a.reverse.headD ' ')

/-! ### Path utilities (`lib/util/fs.py`), POSIX platform -/

/-- `path.startswith(os.sep)` / `posixpath.isabs` on the POSIX platform. -/
def posixIsAbs (p : String) : Bool :=
  match p.toList with
  | '/' :: _ => true
  | _ => false

/-- Does the path end in the separator? -/
def endsWithSlash (p : String) : Bool :=
  match p.toList.reverse with
  | '/' :: _ => true
  | _ => false

/-- `posixpath.join(a, b)`: an absolute second argument replaces everything
before it. -/
def posixJoin2 (a b : String) : String :=
  if posixIsAbs b then b
  else if a = "" || endsWithSlash a then a ++ b
  else a ++ "/" ++ b

/-- `os.path.join(first, *rest)` on POSIX. -/
def posixJoinList (first : String) (rest : List String) : String :=
  rest.foldl posixJoin2 first

/-- Drop trailing separators (`head.rstrip('/')`). -/
def rstripSlashes (cs : List Char) : List Char :=
  (cs.reverse.dropWhile (fun c => c == '/')).reverse

/-- `posixpath.split(p)`: split at the final separator, then strip trailing
separators from the head unless the head is all separators. -/
def posixSplitPath (p : String) : String × String :=
  let cs := p.toList
  let i := match lastIdxOf '/' cs with
    | some k => k + 1
    | none => 0
  let head := cs.take i
  let tail := cs.drop i
  let head' :=
    if !head.isEmpty && !head.all (fun c => c == '/') then rstripSlashes head
    else head
  (String.mk head', String.mk tail)

/-- `get_directory_name`: parent of the path, retrying after a stripped
trailing separator. -/
def getDirectoryName (path : String) : String :=
  let ht := posixSplitPath path
  if ht.2.toList.isEmpty && ht.1 ≠ path then (posixSplitPath ht.1).1
  else ht.1

/-- `get_base_name`: last component of the path, retrying after a stripped
trailing separator.  Note the function always returns a string — the `None`
promised by its docstring for mount points is unreachable. -/
def getBaseName (path : String) : String :=
  let ht := posixSplitPath path
  if !ht.2.toList.isEmpty then ht.2
  else if ht.1 ≠ path then (posixSplitPath ht.1).2
  else ht.2

/-- `resolve_abspath`: return an absolute path as-is, else join the
arguments — in the order `(path, start)` — with `start` defaulting to the
process working directory `cwd`. -/
def resolveAbspath (path : String) (start : Option String) (cwd : String) : String :=
  if posixIsAbs path then path
  else posixJoin2 path (start.getD cwd)

/-- The platform pieces `resolve_binary_path` touches: the filesystem
probe `os.path.isfile`, the `PATH` environment variable, and whether
`os.name == 'nt'` (which switches on the executable-suffix probing).
`isabs`/`join`/`pathsep` are carried explicitly so the candidate-order
result holds for any path flavour; `posixSys` below instantiates them. -/
structure Sys where
  isfile : String → Bool
  pathEnv : Option String
  isNT : Bool
  isabs : String → Bool
  join : String → String → String
  pathsep : Char

/-- The POSIX instantiation of `Sys`. -/
def posixSys (isfile : String → Bool) (pathEnv : Option String) : Sys :=
  { isfile := isfile, pathEnv := pathEnv, isNT := false,
    isabs := posixIsAbs, join := posixJoin2, pathsep := ':' }

/-- The Windows suffix list probed after each bare candidate. -/
def winExts : List String := [".exe", ".cmd", ".bat"]

/-- The `generate_binpaths` generator: for the working directory and then
each path directory, yield the bare joined candidate followed (on the
suffix platform) by each suffixed candidate, and finally yield `None`. -/
def generateBinpaths (sys : Sys) (binpath workingdir : String)
    (pathdirs : List String) : List (Option String) :=
  ((workingdir :: pathdirs).flatMap (fun pathdir =>
    some (sys.join pathdir binpath) ::
      (if sys.isNT then
        winExts.map (fun ext => some (sys.join pathdir (binpath ++ ext)))
      else [])))
    ++ [none]

/-- `next(filter(os.path.isfile, ...))` with `except StopIteration`: walk
the yielded candidates; a `None` candidate reaches `os.path.isfile(None)`,
which raises `TypeError` (only `OSError`/`ValueError` are swallowed by
`isfile`, and `except StopIteration` does not catch it). -/
def firstRealFile (isfile : String → Bool) : List (Option String) →
    Except PyErr (Option String)
  | [] => .ok none  -- StopIteration caught; result_binpath stays None
  | some s :: rest => if isfile s then .ok (some s) else firstRealFile isfile rest
  | none :: _ => .error .typeError  -- os.path.isfile(None)

/-- `resolve_binary_path`: absolute inputs are returned as-is; otherwise the
working directory (default `os.curdir`, i.e. `"."`) and then the path
directories (default: `PATH` split on the path separator, or an empty list
with a warning when `PATH` is unset) are probed in order. -/
def resolveBinaryPath (sys : Sys) (binpath : String) (workingdir : Option String)
    (pathdirs : List String) : Except PyErr (Option String) :=
  if sys.isabs binpath then .ok (some binpath)
  else
    let wd := workingdir.getD "."  -- os.curdir
    let dirs :=
      if pathdirs.isEmpty then
        match sys.pathEnv with
        | none => []  -- warning: cannot read PATH
        | some raw => (pySplitChar sys.pathsep raw.toList).map String.mk
      else pathdirs
    firstRealFile sys.isfile (generateBinpaths sys binpath wd dirs)

/-- `_split_path_components` on POSIX: `os.altsep` is `None`, so this is the
easy branch `path.split(os.sep)`. -/
def splitPathComponents (path : String) : List String :=
  (pySplitChar '/' path.toList).map String.mk

/-- `zip(*path_components)`: transpose, truncating at the shortest list. -/
def zipStar (ls : List (List String)) : List (List String) :=
  let minLen :=
    match ls.map List.length with
    | [] => 0
    | n :: ns => ns.foldl Nat.min n
  (List.range minLen).map (fun i => ls.map (fun l => l.getD i ""))

/-- The traversal loop of `_commonpath_polyfill`: keep the leading
component rows on which every path agrees. -/
def commonComponents : List (List String) → List String
  | [] => []
  | row :: rest =>
    match row with
    | [] => []  -- `if not current_components: break` (empty tuple)
    | c :: _ =>
      if row.all (fun x => x == c) then c :: commonComponents rest
      else []

/-- `_commonpath_polyfill`: no paths is a `ValueError`; one path is returned
verbatim; otherwise the agreeing leading components are joined, after
appending `os.sep` to the first one so that `os.path.join` rebuilds an
absolute path — zero agreeing components is a `ValueError`. -/
def commonpathPolyfill (paths : List String) : Except PyErr String :=
  match paths with
  | [] => .error .valueError  -- 'Paths are invalid'
  | [p] => .ok p
  | _ =>
    let path_components := paths.map splitPathComponents
    let common := commonComponents (zipStar path_components)
    match common with
    | [] => .error .valueError  -- 'Paths do not have a common ancestor'
    | c :: rest => .ok (posixJoinList (c ++ "/") rest)

/-- `get_common_ancestor`: the polyfill's result, falling back to the
caller-supplied default on a `ValueError`. -/
def getCommonAncestor (paths : List String) (dflt : Option String) : Option String :=
  match commonpathPolyfill paths with
  | .ok p => some p
  | .error _ => dflt

/-- A concrete runtime-error diagnostic entry, used to witness the
predicate claims. -/
def exampleRuntimeDiag : DiagnosticError :=
  { exception_type := some (.str "RuntimeError"),
    message := some (.str "RuntimeError: no compile flags available"),
    traceback := none, file_types := none }

/-- A concrete unknown-extra-conf diagnostic entry (not a runtime error),
used to witness the assertion rejection. -/
def exampleConfDiag : DiagnosticError :=
  { exception_type := some (.str "UnknownExtraConf"),
    message := some (.str "Found /tmp/.ycm_extra_conf.py. Load?"),
    traceback := none, file_types := none }

/-- A completion entry with no descriptive text and no kind tag. -/
def exampleOptUnknown : CompletionOption :=
  { menu_info := none, insertion_text := none, extra_data := none,
    detailed_info := none, file_types := none, menu_text := none, kind := none }

/-- A completion entry with kind tag `"Class"` (mixed case). -/
def exampleOptClass : CompletionOption :=
  { menu_info := none, insertion_text := none, extra_data := none,
    detailed_info := none, file_types := none, menu_text := none,
    kind := some (.str "Class") }

/-- A Python-tagged completion entry with descriptive text `"def foo"`. -/
def exampleOptPython : CompletionOption :=
  { menu_info := some (.str "def foo"), insertion_text := none, extra_data := none,
    detailed_info := none, file_types := some ["python"], menu_text := none, kind := none }

/-- A JavaScript-tagged completion entry with descriptive text `"number"`. -/
def exampleOptJs : CompletionOption :=
  { menu_info := some (.str "number"), insertion_text := none, extra_data := none,
    detailed_info := none, file_types := some ["javascript"], menu_text := none, kind := none }

/-- The completion nodes of `exampleReplyNoErrors`. -/
def exampleNodes : List JValue :=
  [.obj [("insertion_text", .str "foo")], .obj [("insertion_text", .str "bar")]]

/-- A concrete valid reply whose `errors` key is omitted. -/
def exampleReplyNoErrors : List (String × JValue) :=
  [("completions", .arr exampleNodes), ("completion_start_column", .num 3)]

/-- A concrete valid reply whose `errors` key is present and empty. -/
def exampleReplyEmptyErrors : List (String × JValue) :=
  [("completions", .arr []), ("errors", .arr []), ("completion_start_column", .num 3)]

/-- The error nodes of `exampleReplyWithErrors`: one node without an
exception type tag, one well-formed runtime error. -/
def exampleErrorNodes : List JValue :=
  [.obj [("message", .str "something broke")],
   .obj [("exception", .obj [("TYPE", .str "RuntimeError")]),
         ("message", .str "no compile flags")]]

/-- A concrete valid reply carrying `exampleErrorNodes`. -/
def exampleReplyWithErrors : List (String × JValue) :=
  [("completions", .arr []), ("errors", .arr exampleErrorNodes),
   ("completion_start_column", .num 3)]

/-- A completion entry whose menu text is the function call `foo(a, b)`
with insertion text `foo`. -/
def exampleOptFunc : CompletionOption :=
  { menu_info := none, insertion_text := some (.str "foo"), extra_data := none,
    detailed_info := none, file_types := none, menu_text := some (.str "foo(a, b)"),
    kind := none }

/-- A completion entry with no insertion text set (never properly
initialized). -/
def exampleOptNoInsertion : CompletionOption :=
  { menu_info := none, insertion_text := none, extra_data := none,
    detailed_info := none, file_types := none, menu_text := none, kind := none }

/-! ## Helper lemmas -/

theorem attemptParse_eq {α : Type} (r : Except PyErr α) :
    attemptParse r = (r.toOption, specEvents r) := by
  cases r with
  | ok v => rfl
  | error e => cases e <;> rfl

/-! ## Claims -/

/-- Claim C1: for every input `raw` of any type and any optional
request-parameter context, the combined parser returns a
`CompletionResponse` and never raises (it is a total function into
`CompletionResponse × List LogLevel`, every failure mode of the sub-parsers
being a caught `PyErr`): each half of the response is the corresponding
sub-parse downgraded to `none` on failure, with a warning-level event for a
`ValueError` or `NotImplementedError` and an error-level event for any
other unexpected failure. -/
theorem parseCompletions_total_downgrade (raw : RawInput) (rp : ReqArg) :
    parseCompletions raw rp =
      ({ completions := (parseCompoptions raw rp).toOption,
         diagnostics := (parseDiagnostics raw rp).toOption.map Prod.fst },
       specEvents (parseCompoptions raw rp) ++ specEventsDiag (parseDiagnostics raw rp)) := by
  unfold parseCompletions
  rw [attemptParse_eq, attemptParse_eq]
  cases hd : parseDiagnostics raw rp with
  | ok p =>
    cases p with
    | mk d ev => simp [specEventsDiag, Except.toOption, specEvents]
  | error e => simp [specEventsDiag, Except.toOption, specEvents]

/-- Claim C3 counterexample: `common_ancestor(["/usr", "/lib"])` does not
raise "no common ancestor" — the empty root component of the two absolute
paths agrees, so the polyfill succeeds with `"/"` and `get_common_ancestor`
never falls back to the caller-supplied default. -/
theorem commonAncestor_root_counterexample :
    commonpathPolyfill ["/usr", "/lib"] = .ok "/" ∧
    getCommonAncestor ["/usr", "/lib"] (some "DEFAULT") = some "/" :=
  ⟨rfl, rfl⟩

/-- Claim C3 (amended): `common_ancestor` rejects an empty path list with a
value error; returns a single path verbatim; and for N>1 paths returns the
join of all leading components on which every path agrees, raising a value
error — on which `get_common_ancestor` falls back to the caller-supplied
default — exactly when zero components agree.  In particular
`common_ancestor(["/usr/lib", "/usr/bin"])` returns `/usr`, while
`common_ancestor(["/usr", "/lib"])` returns `/` (the empty root component
of two absolute POSIX paths always agrees); zero components agree only for
paths that differ already in their first component, such as relative paths
`["usr/lib", "var/log"]`. -/
theorem commonAncestor_spec :
    commonpathPolyfill [] = .error .valueError ∧
    (∀ p : String, commonpathPolyfill [p] = .ok p) ∧
    (∀ (p q : String) (rest : List String),
      commonpathPolyfill (p :: q :: rest) =
        match commonComponents (zipStar ((p :: q :: rest).map splitPathComponents)) with
        | [] => .error .valueError
        | c :: cs => .ok (posixJoinList (c ++ "/") cs)) ∧
    commonpathPolyfill ["/usr/lib", "/usr/bin"] = .ok "/usr" ∧
    commonpathPolyfill ["/usr", "/lib"] = .ok "/" ∧
    commonpathPolyfill ["usr/lib", "var/log"] = .error .valueError ∧
    (∀ (paths : List String) (dflt : Option String),
      getCommonAncestor paths dflt =
        match commonpathPolyfill paths with
        | .ok p => some p
        | .error _ => dflt) :=
  ⟨rfl, fun _ => rfl, fun _ _ _ => rfl, rfl, rfl, rfl, fun _ _ => rfl⟩

/-- Claim C9 (code bug): `get_base_name` retries after stripping a trailing
separator (`"/usr/"` gives `"usr"`), but for the mount point `"/"` it
returns the empty string `""`, not the `None` promised by its docstring and
the spec — the function always returns a string. -/
theorem getBaseName_eval :
    getBaseName "/" = "" ∧ getBaseName "/usr/" = "usr" ∧ getBaseName "/usr/lib" = "lib" :=
  ⟨rfl, rfl, rfl⟩

/-- Claim C10: `resolve_abspath` joins its arguments in the order
`(path, start)`, and a path join discards everything before an absolute
second argument, so for every relative `path` and absolute `start` the
function returns `start` itself, never resolving `path` against the base as
its docstring describes. -/
theorem resolveAbspath_discards_relative_path (path start cwd : String)
    (hpath : posixIsAbs path = false) (hstart : posixIsAbs start = true) :
    resolveAbspath path (some start) cwd = start := by
  simp [resolveAbspath, posixJoin2, hpath, hstart]

/-- Witness for claim C10 at a concrete relative path and absolute start. -/
theorem resolveAbspath_discards_relative_path_witness :
    posixIsAbs "doc/readme.md" = false ∧ posixIsAbs "/home/user" = true ∧
    resolveAbspath "doc/readme.md" (some "/home/user") "/cwd" = "/home/user" :=
  ⟨rfl, rfl, resolveAbspath_discards_relative_path "doc/readme.md" "/home/user" "/cwd" rfl rfl⟩

/-- Claim C4 (code bug): `resolve_binary_path` returns an absolute binpath
unchanged and probes candidates in the claimed order (working directory
first, suffix variants interleaved immediately after each bare candidate),
returning the first real file — but when every candidate is exhausted the
trailing `yield None` of its generator reaches `os.path.isfile(None)`,
which raises `TypeError` instead of letting the `except StopIteration`
branch return `None`: the second conjunct evaluates exactly that failure. -/
theorem resolveBinaryPath_eval :
    resolveBinaryPath (posixSys (fun _ => false) (some "/usr/bin:/usr/local/bin"))
      "/opt/bin/python" none [] = .ok (some "/opt/bin/python") ∧
    resolveBinaryPath (posixSys (fun _ => false) (some "/usr/bin:/usr/local/bin"))
      "python" none [] = .error .typeError ∧
    resolveBinaryPath
      (posixSys (fun p => p == "/usr/bin/python" || p == "/usr/local/bin/python")
        (some "/usr/bin:/usr/local/bin"))
      "python" none [] = .ok (some "/usr/bin/python") ∧
    resolveBinaryPath
      { isfile := fun p => p == "./python.cmd" || p == "/usr/bin/python",
        pathEnv := some "/usr/bin", isNT := true,
        isabs := posixIsAbs, join := posixJoin2, pathsep := ':' }
      "python" none [] = .ok (some "./python.cmd") :=
  ⟨rfl, rfl, rfl, rfl⟩

/-- Claim C8: for every diagnostic entry classified as a runtime error
(with a message that is absent or a string, per the data model), the
compile-flag-missing predicate evaluates without raising to a value that is
truthy exactly when the message contains the substring `"no compile
flags"`; calling the predicate on an entry not classified as a runtime
error fires the defensive assertion. -/
theorem isCompileFlagMissingError_spec :
    (∀ d : DiagnosticError, d.isRuntimeError = true →
      (d.message = none ∨ ∃ s, d.message = some (.str s)) →
      ∃ r, d.isCompileFlagMissingError = .ok r ∧
        (truthy r = true ↔
          ∃ s, d.message = some (.str s) ∧
            isInfixC "no compile flags".toList s.toList = true)) ∧
    (∀ d : DiagnosticError, d.isRuntimeError = false →
      d.isCompileFlagMissingError = .error .assertionError) := by
  constructor
  · intro d hrt hm
    rcases hm with hnone | ⟨s, hs⟩
    · refine ⟨.null, ?_, ?_⟩
      · simp [DiagnosticError.isCompileFlagMissingError, hrt, hnone]
      · simp [truthy, hnone]
    · rcases hsd : s.data with _ | ⟨c, cs⟩
      · refine ⟨.str s, ?_, ?_⟩
        · simp [DiagnosticError.isCompileFlagMissingError, hrt, hs, truthy, hsd]
        · simp [truthy, hsd, hs, isInfixC]
      · refine ⟨.bool (isInfixC "no compile flags".toList s.toList), ?_, ?_⟩
        · simp [DiagnosticError.isCompileFlagMissingError, hrt, hs, truthy, hsd]
        · simp [truthy, hs]
  · intro d hrt
    simp [DiagnosticError.isCompileFlagMissingError, hrt]

/-- Witness for claim C8: a runtime-error entry whose message contains
`"no compile flags"` satisfies the predicate, and a non-runtime-error entry
is rejected by the assertion. -/
theorem isCompileFlagMissingError_spec_witness :
    exampleRuntimeDiag.isRuntimeError = true ∧
    (∃ r, exampleRuntimeDiag.isCompileFlagMissingError = .ok r ∧
      (truthy r = true ↔
        ∃ s, exampleRuntimeDiag.message = some (.str s) ∧
          isInfixC "no compile flags".toList s.toList = true)) ∧
    exampleConfDiag.isCompileFlagMissingError = .error .assertionError :=
  ⟨rfl,
    isCompileFlagMissingError_spec.1 exampleRuntimeDiag rfl
      (Or.inr ⟨"RuntimeError: no compile flags available", rfl⟩),
    isCompileFlagMissingError_spec.2 exampleConfDiag rfl⟩

/-- Claim C7: the two-tier classifier — an entry with no descriptive text
and no kind tag yields the fixed unknown marker `"?"`; an entry whose kind
tag is `"Class"` in any letter case (and whose descriptive text, if any, is
not the identifier marker) yields the class category; a Python-tagged entry
with descriptive text `"def foo"` yields the function category `"fn"`; a
JavaScript-tagged entry with descriptive text `"number"` yields the
number-type category `"num"` (the cpp handler must not fire first, since it
always produces a verdict). -/
theorem shortdesc_spec :
    (∀ o : CompletionOption,
      (o.menu_info = none ∨ o.menu_info = some (.str "")) →
      truthyOpt o.kind = false →
      o.shortdesc = .ok (some (.str "?"))) ∧
    (∀ (o : CompletionOption) (k : String),
      (o.menu_info = none ∨ ∃ s, o.menu_info = some (.str s) ∧ s ≠ "[ID]") →
      o.kind = some (.str k) → lowerStr k = "class" →
      o.shortdesc = .ok (some (.str "class"))) ∧
    (∀ o : CompletionOption,
      o.menu_info = some (.str "def foo") → truthyOpt o.kind = false →
      o.hasFileType "cpp" = false → o.hasFileType "python" = true →
      o.shortdesc = .ok (some (.str "fn"))) ∧
    (∀ o : CompletionOption,
      o.menu_info = some (.str "number") → truthyOpt o.kind = false →
      o.hasFileType "cpp" = false → o.hasFileType "javascript" = true →
      o.shortdesc = .ok (some (.str "num"))) := by
  refine ⟨?_, ?_, ?_, ?_⟩
  · intro o hmi hkind
    rcases hmi with h | h <;>
      simp [CompletionOption.shortdesc, shortdescCommon, shortdescCommonCore, h, hkind]
  · intro o k hmi hk hklass
    have hkne : k.data ≠ [] := by
      intro h0
      have hempty : lowerStr k = "" := by
        rw [lowerStr, show k.toList = k.data from rfl, h0]
        rfl
      rw [hklass] at hempty
      exact absurd hempty (by decide)
    have hke : k.data.isEmpty = false := by
      cases hd : k.data with
      | nil => exact absurd hd hkne
      | cons a as => rfl
    have htk : truthy (.str k) = true := by
      simp [truthy, String.toList, hke]
    rcases hmi with h | ⟨ms, hms, hmsne⟩
    · simp [CompletionOption.shortdesc, shortdescCommon, shortdescCommonCore, h, hk,
        truthyOpt, htk, pyStr, hklass]
    · have hbeq : (ms == "[ID]") = false := beq_eq_false_iff_ne.mpr hmsne
      simp [CompletionOption.shortdesc, shortdescCommon, shortdescCommonCore, hms, hk,
        truthyOpt, htk, pyStr, hklass, hbeq]
  · intro o hmi hkind hcpp hpy
    have hpyv : shortdescPython (some (.str "def foo")) o.kind = .ok (some "fn") := rfl
    have h1 : "def foo".toList.isEmpty = false := rfl
    have h2 : ("def foo" == "[ID]") = false := rfl
    have hcommon : shortdescCommon (some (.str "def foo")) o.kind = .ok none := by
      cases hkv : o.kind with
      | none => rfl
      | some k =>
        have hkf : truthy k = false := by
          rw [hkv] at hkind
          simpa [truthyOpt] using hkind
        simp [shortdescCommon, shortdescCommonCore, hkf, h1, h2]
    simp [CompletionOption.shortdesc, hcommon, shortdescHandlers, tryShortdescHandlers,
      hcpp, hpy, hmi, hpyv]
  · intro o hmi hkind hcpp hjs
    have hjsv : shortdescJavascript (some (.str "number")) o.kind = .ok (some "num") := rfl
    have hpyv : shortdescPython (some (.str "number")) o.kind = .ok none := rfl
    have h1 : "number".toList.isEmpty = false := rfl
    have h2 : ("number" == "[ID]") = false := rfl
    have hcommon : shortdescCommon (some (.str "number")) o.kind = .ok none := by
      cases hkv : o.kind with
      | none => rfl
      | some k =>
        have hkf : truthy k = false := by
          rw [hkv] at hkind
          simpa [truthyOpt] using hkind
        simp [shortdescCommon, shortdescCommonCore, hkf, h1, h2]
    by_cases hpy : o.hasFileType "python"
    · simp [CompletionOption.shortdesc, hcommon, shortdescHandlers, tryShortdescHandlers,
        hcpp, hpy, hjs, hmi, hjsv, hpyv]
    · simp [CompletionOption.shortdesc, hcommon, shortdescHandlers, tryShortdescHandlers,
        hcpp, hpy, hjs, hmi, hjsv]

/-- Witness for claim C7: the four classifier behaviours at concrete
entries. -/
theorem shortdesc_spec_witness :
    exampleOptUnknown.shortdesc = .ok (some (.str "?")) ∧
    exampleOptClass.shortdesc = .ok (some (.str "class")) ∧
    exampleOptPython.shortdesc = .ok (some (.str "fn")) ∧
    exampleOptJs.shortdesc = .ok (some (.str "num")) :=
  ⟨shortdesc_spec.1 exampleOptUnknown (Or.inl rfl) rfl,
    shortdesc_spec.2.1 exampleOptClass "Class" (Or.inl rfl) rfl rfl,
    shortdesc_spec.2.2.1 exampleOptPython rfl rfl rfl rfl,
    shortdesc_spec.2.2.2 exampleOptJs rfl rfl rfl rfl⟩

theorem parseOptionsList_all_obj (nodes : List JValue) (fts : Option (List String))
    (h : nodes.all isObjB = true) :
    parseOptionsList nodes fts =
      .ok (nodes.map (fun n => mkCompletionOption n.objFields fts)) := by
  induction nodes with
  | nil => rfl
  | cons n rest ih =>
    rw [List.all_cons, Bool.and_eq_true] at h
    obtain ⟨hn, hrest⟩ := h
    cases n with
    | obj fields =>
      simp [parseOptionsList, parseCompletionOption, JValue.objFields, ih hrest]
    | null => simp [isObjB] at hn
    | bool b => simp [isObjB] at hn
    | num m => simp [isObjB] at hn
    | str t => simp [isObjB] at hn
    | arr items => simp [isObjB] at hn

/-- Claim C2: for a reply mapping whose `completions` is a nonempty list of
mappings, with `completion_start_column` present and `errors` omitted, the
combined parse yields a completions collection that is exactly the input
list mapped in order (hence of equal length), and a null diagnostics
result. -/
theorem parse_all_valid_reply (d : List (String × JValue)) (nodes : List JValue)
    (col : JValue) (rp : ReqArg)
    (hcomp : lookupJ d "completions" = some (.arr nodes))
    (hobj : nodes.all isObjB = true)
    (_hne : nodes.isEmpty = false)
    (hcol : lookupJ d "completion_start_column" = some col)
    (herr : lookupJ d "errors" = none)
    (hrp : rp ≠ .invalid) :
    (parseCompletions (.mapping d) rp).1 =
      { completions := some
          { completion_options :=
              some (nodes.map (fun n => mkCompletionOption n.objFields rp.fileTypesOf)),
            start_column := some col },
        diagnostics := none } ∧
    (nodes.map (fun n => mkCompletionOption n.objFields rp.fileTypesOf)).length
      = nodes.length := by
  have hjson : parseJsonResponse (.mapping d) true = .ok d := by
    simp [parseJsonResponse, parseJsonChecks, hcomp, isDictList, hobj]
  have hcompop : parseCompoptions (.mapping d) rp =
      .ok { completion_options :=
              some (nodes.map (fun n => mkCompletionOption n.objFields rp.fileTypesOf)),
            start_column := some col } := by
    cases rp with
    | invalid => exact absurd rfl hrp
    | noParams =>
      simp [parseCompoptions, hjson, hcomp, hcol,
        parseOptionsList_all_obj nodes _ hobj]
    | params fts =>
      simp [parseCompoptions, hjson, hcomp, hcol,
        parseOptionsList_all_obj nodes _ hobj]
  have hdiag : parseDiagnostics (.mapping d) rp = .error .valueError := by
    simp [parseDiagnostics, parseJsonResponse, parseJsonChecks, herr]
  constructor
  · unfold parseCompletions
    rw [attemptParse_eq, attemptParse_eq, hcompop, hdiag]
    rfl
  · simp

/-- Witness for claim C2: a two-candidate reply without `errors` parses to
two options in order and a null diagnostics result. -/
theorem parse_all_valid_reply_witness :
    lookupJ exampleReplyNoErrors "completions" = some (.arr exampleNodes) ∧
    lookupJ exampleReplyNoErrors "errors" = none ∧
    exampleNodes.all isObjB = true ∧
    ((parseCompletions (.mapping exampleReplyNoErrors) .noParams).1 =
      { completions := some
          { completion_options :=
              some (exampleNodes.map
                (fun n => mkCompletionOption n.objFields ReqArg.noParams.fileTypesOf)),
            start_column := some (.num 3) },
        diagnostics := none } ∧
      (exampleNodes.map
        (fun n => mkCompletionOption n.objFields ReqArg.noParams.fileTypesOf)).length
        = exampleNodes.length) :=
  ⟨rfl, rfl, rfl,
    parse_all_valid_reply exampleReplyNoErrors exampleNodes (.num 3) .noParams
      rfl rfl rfl rfl rfl (by decide)⟩

theorem parseDiagList_eq (nodes : List JValue) (fts : Option (List String)) :
    (parseDiagList nodes fts).1 =
      nodes.filterMap (fun n => (tryParseDiagnostic n fts).1) := by
  induction nodes with
  | nil => rfl
  | cons n rest ih =>
    cases h : (tryParseDiagnostic n fts).1 with
    | some dd => simp [parseDiagList, h, ih]
    | none => simp [parseDiagList, h, ih]

theorem parseDiagnostic_obj (fields : List (String × JValue)) (fts : Option (List String)) :
    parseDiagnostic (.obj fields) fts =
      match excTypeOf (lookupJ fields "exception") with
      | .error e => .error e
      | .ok exception_type =>
        if truthyOpt exception_type = true then
          .ok { exception_type := exception_type, message := lookupJ fields "message",
                traceback := lookupJ fields "traceback", file_types := none }
        else .error .notImplementedError := rfl

theorem tryParseDiagnostic_truthy (n : JValue) (fts : Option (List String))
    (dd : DiagnosticError) (h : (tryParseDiagnostic n fts).1 = some dd) :
    truthyOpt dd.exception_type = true := by
  unfold tryParseDiagnostic at h
  cases hp : parseDiagnostic n fts with
  | error e => rw [hp] at h; cases e <;> simp at h
  | ok d2 =>
    rw [hp] at h
    simp at h
    subst h
    unfold parseDiagnostic at hp
    split at hp
    · split at hp
      · simp at hp
      · split at hp
        · injection hp with h2
          subst h2
          assumption
        · simp at hp
    · simp at hp

/-- Claim C5 counterexample: for a reply whose `errors` key is absent (a
well-formed completions-only reply), `parse_diagnostics` does not return the
no-diagnostics result — its full validation raises a `ValueError`. -/
theorem parseDiagnostics_absent_errors_counterexample :
    parseDiagnostics (.mapping exampleReplyNoErrors) .noParams = .error .valueError :=
  rfl

/-- Claim C5 (amended): `parse_diagnostics` returns the explicit
no-diagnostics result (a `Diagnostics` wrapper around `None`, not an empty
list) when the `errors` field is present and empty; when `errors` is
absent, the full validation raises a value error instead (which the
combined parser downgrades to an absent diagnostics half).  An error node
lacking a truthy nested exception-type tag is skipped with a warning,
never aborting the batch, and every constructed entry carries a truthy
exception type, with the surviving entries in input order. -/
theorem parseDiagnostics_spec :
    (∀ (d : List (String × JValue)) (rp : ReqArg) (cs : JValue),
      rp ≠ .invalid →
      lookupJ d "errors" = some (.arr []) →
      lookupJ d "completions" = some cs → isDictList cs = true →
      parseDiagnostics (.mapping d) rp = .ok ({ diagnostics := none }, [])) ∧
    (∀ (d : List (String × JValue)) (rp : ReqArg),
      lookupJ d "errors" = none →
      parseDiagnostics (.mapping d) rp = .error .valueError) ∧
    (∀ (d : List (String × JValue)) (rp : ReqArg) (nodes : List JValue) (cs : JValue),
      rp ≠ .invalid →
      lookupJ d "errors" = some (.arr nodes) → nodes.all isObjB = true →
      nodes.isEmpty = false →
      lookupJ d "completions" = some cs → isDictList cs = true →
      ∃ evs, parseDiagnostics (.mapping d) rp =
        .ok ({ diagnostics :=
            some (nodes.filterMap (fun n => (tryParseDiagnostic n rp.fileTypesOf).1)) },
          evs) ∧
        ∀ de ∈ nodes.filterMap (fun n => (tryParseDiagnostic n rp.fileTypesOf).1),
          truthyOpt de.exception_type = true) ∧
    (∀ (fields : List (String × JValue)) (fts : Option (List String)) (et : Option JValue),
      excTypeOf (lookupJ fields "exception") = .ok et → truthyOpt et = false →
      tryParseDiagnostic (.obj fields) fts = (none, [.warning])) := by
  refine ⟨?_, ?_, ?_, ?_⟩
  · intro d rp cs hrp herr hcomp hcs
    cases cs with
    | arr items =>
      simp only [isDictList] at hcs
      have hjson : parseJsonResponse (.mapping d) false = .ok d := by
        simp [parseJsonResponse, parseJsonChecks, herr, hcomp, isDictList, hcs]
      cases rp with
      | invalid => exact absurd rfl hrp
      | noParams => simp [parseDiagnostics, hjson, herr, truthy]
      | params fts => simp [parseDiagnostics, hjson, herr, truthy]
    | null => simp [isDictList] at hcs
    | bool b => simp [isDictList] at hcs
    | num m => simp [isDictList] at hcs
    | str t => simp [isDictList] at hcs
    | obj fs => simp [isDictList] at hcs
  · intro d rp herr
    simp [parseDiagnostics, parseJsonResponse, parseJsonChecks, herr]
  · intro d rp nodes cs hrp herr hobj hne hcomp hcs
    have hmem : ∀ de ∈ nodes.filterMap (fun n => (tryParseDiagnostic n rp.fileTypesOf).1),
        truthyOpt de.exception_type = true := by
      intro de hde
      rw [List.mem_filterMap] at hde
      obtain ⟨n, _, hn⟩ := hde
      exact tryParseDiagnostic_truthy n rp.fileTypesOf de hn
    cases cs with
    | arr items =>
      simp only [isDictList] at hcs
      have hjson : parseJsonResponse (.mapping d) false = .ok d := by
        simp [parseJsonResponse, parseJsonChecks, herr, hcomp, isDictList, hcs, hobj]
      have htr : truthy (.arr nodes) = true := by
        simp [truthy, hne]
      refine ⟨(parseDiagList nodes rp.fileTypesOf).2, ?_, hmem⟩
      cases rp with
      | invalid => exact absurd rfl hrp
      | noParams =>
        simp [parseDiagnostics, hjson, herr, htr, parseDiagList_eq]
      | params fts =>
        simp [parseDiagnostics, hjson, herr, htr, parseDiagList_eq]
    | null => simp [isDictList] at hcs
    | bool b => simp [isDictList] at hcs
    | num m => simp [isDictList] at hcs
    | str t => simp [isDictList] at hcs
    | obj fs => simp [isDictList] at hcs
  · intro fields fts et he hef
    unfold tryParseDiagnostic
    rw [parseDiagnostic_obj, he]
    simp [hef]

/-- Witness for claim C5 (amended): empty `errors` gives the no-diagnostics
wrapper; absent `errors` raises a value error; a batch with one malformed
and one well-formed node parses to the in-order survivors, all carrying a
truthy exception type; and the malformed node is skipped with a warning. -/
theorem parseDiagnostics_spec_witness :
    lookupJ exampleReplyEmptyErrors "errors" = some (.arr []) ∧
    parseDiagnostics (.mapping exampleReplyEmptyErrors) .noParams =
      .ok ({ diagnostics := none }, []) ∧
    parseDiagnostics (.mapping exampleReplyNoErrors) .noParams = .error .valueError ∧
    (∃ evs, parseDiagnostics (.mapping exampleReplyWithErrors) .noParams =
      .ok ({ diagnostics := some (exampleErrorNodes.filterMap
          (fun n => (tryParseDiagnostic n ReqArg.noParams.fileTypesOf).1)) }, evs) ∧
      ∀ de ∈ exampleErrorNodes.filterMap
          (fun n => (tryParseDiagnostic n ReqArg.noParams.fileTypesOf).1),
        truthyOpt de.exception_type = true) ∧
    tryParseDiagnostic (.obj [("message", .str "something broke")]) none =
      (none, [.warning]) :=
  ⟨rfl,
    parseDiagnostics_spec.1 exampleReplyEmptyErrors .noParams (.arr [])
      (by decide) rfl rfl rfl,
    parseDiagnostics_spec.2.1 exampleReplyNoErrors .noParams rfl,
    parseDiagnostics_spec.2.2.1 exampleReplyWithErrors .noParams exampleErrorNodes
      (.arr []) (by decide) rfl rfl rfl rfl rfl,
    parseDiagnostics_spec.2.2.2 [("message", .str "something broke")] none none rfl rfl⟩

theorem charMem_append (c : Char) (u v : List Char) :
    charMem c (u ++ v) = (charMem c u || charMem c v) := by
  induction u with
  | nil => simp [charMem]
  | cons x xs ih => simp [charMem, ih, Bool.or_assoc]

theorem charMem_take (c : Char) (l : List Char) (n : Nat)
    (h : charMem c l = false) : charMem c (l.take n) = false := by
  induction l generalizing n with
  | nil => simp [List.take_nil, charMem]
  | cons x xs ih =>
    rw [charMem, Bool.or_eq_false_iff] at h
    cases n with
    | zero => simp [charMem]
    | succ m => simp [List.take_succ_cons, charMem, h.1, ih m h.2]

theorem lastIdxOf_none (c : Char) (l : List Char) (h : charMem c l = false) :
    lastIdxOf c l = none := by
  induction l with
  | nil => rfl
  | cons x xs ih =>
    rw [charMem, Bool.or_eq_false_iff] at h
    simp [lastIdxOf, ih h.2, h.1]

theorem lastIdxOf_append_right (c : Char) (u v : List Char) (i : Nat)
    (h : lastIdxOf c v = some i) :
    lastIdxOf c (u ++ v) = some (u.length + i) := by
  induction u with
  | nil => simpa using h
  | cons x xs ih =>
    simp [lastIdxOf, ih]
    omega

theorem lastIdxOf_snoc_self (c : Char) (u : List Char) :
    lastIdxOf c (u ++ [c]) = some u.length := by
  induction u with
  | nil => simp [lastIdxOf]
  | cons x xs ih => simp [lastIdxOf, ih]

theorem firstNewlinePos_of_not_mem (l : List Char) (h : charMem '\n' l = false) :
    firstNewlinePos l = l.length := by
  induction l with
  | nil => rfl
  | cons x xs ih =>
    rw [charMem, Bool.or_eq_false_iff] at h
    have hx : ¬x = '\n' := by
      intro h0
      rw [h0] at h
      simp at h
    simp [firstNewlinePos, hx, ih h.2]

theorem hasOpenClose_append (u w : List Char) (hw : charMem ')' w = true) :
    hasOpenClose (u ++ '(' :: w) = true := by
  induction u with
  | nil => simp [hasOpenClose, hw]
  | cons x xs ih =>
    by_cases hx : x = '('
    · subst hx
      simp [hasOpenClose, charMem_append, charMem, hw]
    · simp [hasOpenClose, hx, ih]

theorem pySplitChar_no_sep (sep : Char) (a : List Char) (h : charMem sep a = false) :
    pySplitChar sep a = [a] := by
  induction a with
  | nil => rfl
  | cons c cs ih =>
    rw [charMem, Bool.or_eq_false_iff] at h
    have hc : ¬c = sep := by
      intro h0
      rw [h0] at h
      simp at h
    simp [pySplitChar, hc, ih h.2]

theorem pySplitChar_append_sep (sep : Char) (a t : List Char)
    (h : charMem sep a = false) :
    pySplitChar sep (a ++ sep :: t) = a :: pySplitChar sep t := by
  induction a with
  | nil => simp [pySplitChar]
  | cons c cs ih =>
    rw [charMem, Bool.or_eq_false_iff] at h
    have hc : ¬c = sep := by
      intro h0
      rw [h0] at h
      simp at h
    simp [pySplitChar, hc, ih h.2]

theorem pySplitChar_intercalate (x : List Char) (rest : List (List Char))
    (hx : charMem ',' x = false) (hrest : ∀ a ∈ rest, charMem ',' a = false) :
    pySplitChar ',' (intercalateC [',', ' '] (x :: rest)) =
      x :: rest.map (fun a => ' ' :: a) := by
  induction rest generalizing x with
  | nil => simp [intercalateC, pySplitChar_no_sep ',' x hx]
  | cons y rest' ih =>
    have hy : charMem ',' y = false := hrest y (by simp)
    have hrest' : ∀ a ∈ rest', charMem ',' a = false := fun a ha => hrest a (by simp [ha])
    have hjoin : intercalateC [',', ' '] (x :: y :: rest') =
        x ++ ',' :: ' ' :: intercalateC [',', ' '] (y :: rest') := by
      simp [intercalateC]
    rw [hjoin, pySplitChar_append_sep ',' x _ hx]
    have hys := ih y hy hrest'
    have hspace : pySplitChar ',' (' ' :: intercalateC [',', ' '] (y :: rest')) =
        (' ' :: y) :: rest'.map (fun a => ' ' :: a) := by
      rw [pySplitChar]
      simp only [hys]
      simp
    rw [hspace]
    simp

theorem pyStrip_space_cons (a : List Char) : pyStrip (' ' :: a) = pyStrip a := by
  have hsp : charMem ' ' pyWhitespace = true := by decide
  simp [pyStrip, List.dropWhile_cons, isPySpace, hsp]

theorem pyStrip_clean (a : List Char) (hne : a ≠ [])
    (hhead : isPySpace (a.headD ' ') = false)
    (hlast : isPySpace (a.reverse.headD ' ') = false) :
    pyStrip a = a := by
  have h1 : a.dropWhile isPySpace = a := by
    cases a with
    | nil => rfl
    | cons c cs =>
      simp only [List.headD_cons] at hhead
      simp [List.dropWhile_cons, hhead]
  rw [pyStrip, h1]
  cases hr : a.reverse with
  | nil =>
    have : a = [] := by simpa using congrArg List.reverse hr
    exact absurd this hne
  | cons d ds =>
    rw [hr] at hlast
    simp only [List.headD_cons] at hlast
    have h2 : (d :: ds).dropWhile isPySpace = d :: ds := by
      simp [List.dropWhile_cons, hlast]
    rw [h2, ← hr, List.reverse_reverse]

theorem placeholdersFrom_map_space (args : List (List Char)) (n : Nat)
    (h : ∀ a ∈ args, pyStrip a = a) :
    placeholdersFrom n (args.map (fun a => ' ' :: a)) = specPlaceholders n args := by
  induction args generalizing n with
  | nil => rfl
  | cons a rest ih =>
    have ha : pyStrip a = a := h a (by simp)
    have hrest : ∀ b ∈ rest, pyStrip b = b := fun b hb => h b (by simp [hb])
    simp [placeholdersFrom, specPlaceholders, pyStrip_space_cons, ha, ih (n + 1) hrest]

theorem placeholdersFrom_canonical (x : List Char) (rest : List (List Char))
    (hx : pyStrip x = x) (hrest : ∀ a ∈ rest, pyStrip a = a) :
    placeholdersFrom 1 (x :: rest.map (fun a => ' ' :: a)) =
      specPlaceholders 1 (x :: rest) := by
  simp [placeholdersFrom, specPlaceholders, hx, placeholdersFrom_map_space rest 2 hrest]

theorem charMem_intercalateC (c : Char) (args : List (List Char))
    (hsep : charMem c [',', ' '] = false)
    (h : ∀ a ∈ args, charMem c a = false) :
    charMem c (intercalateC [',', ' '] args) = false := by
  induction args with
  | nil => rfl
  | cons a rest ih =>
    cases rest with
    | nil => exact h a (by simp)
    | cons b rest' =>
      have ha : charMem c a = false := h a (by simp)
      have hr : ∀ x ∈ b :: rest', charMem c x = false := fun x hx => h x (by simp [hx])
      rw [intercalateC, charMem_append, charMem_append, ha, hsep, ih hr]
      rfl

theorem intercalateC_ne_nil (a : List Char) (rest : List (List Char)) (ha : a ≠ []) :
    intercalateC [',', ' '] (a :: rest) ≠ [] := by
  cases rest with
  | nil => simpa [intercalateC] using ha
  | cons b rest' =>
    rw [intercalateC]
    cases a with
    | nil => exact absurd rfl ha
    | cons x xs => simp

theorem isFuncMatch_canonical (A w : List Char)
    (hnl : charMem '\n' (A ++ '(' :: w) = false) (hw : charMem ')' w = true) :
    isFuncMatch (A ++ '(' :: w) = true := by
  rw [isFuncMatch, firstNewlinePos_of_not_mem _ hnl, List.take_length]
  exact hasOpenClose_append A w hw

theorem group1_canonical (A B : List Char)
    (hnl : charMem '\n' (A ++ '(' :: (B ++ [')'])) = false)
    (hBo : charMem '(' B = false) (hBne : B ≠ []) :
    group1? (A ++ '(' :: (B ++ [')'])) = some B := by
  obtain ⟨b', hb'⟩ : ∃ b', B.length = b' + 1 := by
    cases hB : B with
    | nil => exact absurd hB hBne
    | cons y ys => exact ⟨ys.length, by simp⟩
  have hq : lastIdxOf ')' (A ++ '(' :: (B ++ [')'])) =
      some (A.length + (B.length + 1)) := by
    apply lastIdxOf_append_right
    rw [lastIdxOf, lastIdxOf_snoc_self]
  have htake : (A ++ '(' :: (B ++ [')'])).take (A.length + (B.length + 1) - 1) =
      A ++ '(' :: B.take b' := by
    have harith : A.length + (B.length + 1) - 1 = A.length + (b' + 1) := by omega
    rw [harith, List.take_append_eq_append_take,
      List.take_of_length_le (by omega)]
    have hidx : A.length + (b' + 1) - A.length = b' + 1 := by omega
    rw [hidx, List.take_succ_cons, List.take_append_of_le_length (by omega)]
  have hBo' : charMem '(' (B.take b') = false := charMem_take '(' B b' hBo
  have hp : lastIdxOf '(' (A ++ '(' :: B.take b') = some A.length := by
    have := lastIdxOf_append_right '(' A ('(' :: B.take b') 0
      (by rw [lastIdxOf, lastIdxOf_none '(' _ hBo']; simp)
    simpa using this
  have hdrop : (A ++ '(' :: (B ++ [')'])).drop (A.length + 1) = B ++ [')'] := by
    have h1 : A ++ '(' :: (B ++ [')']) = (A ++ ['(']) ++ (B ++ [')']) := by simp
    have h2 : A.length + 1 = (A ++ ['(']).length := by simp
    rw [h1, h2, List.drop_left]
  rw [group1?]
  simp only [firstNewlinePos_of_not_mem _ hnl, List.take_length, hq, htake, hp, hdrop]
  have harith2 : A.length + (B.length + 1) - A.length - 1 = B.length := by omega
  rw [harith2, List.take_left]

theorem specArgOk_unpack (a : List Char) (h : specArgOk a = true) :
    a ≠ [] ∧ charMem ',' a = false ∧ charMem '(' a = false ∧ charMem ')' a = false ∧
    charMem '\n' a = false ∧ isPySpace (a.headD ' ') = false ∧
    isPySpace (a.reverse.headD ' ') = false := by
  rw [specArgOk] at h
  simp only [Bool.and_eq_true, Bool.not_eq_true'] at h
  obtain ⟨⟨⟨⟨⟨⟨h1, h2⟩, h3⟩, h4⟩, h5⟩, h6⟩, h7⟩ := h
  refine ⟨?_, h2, h3, h4, h5, h6, h7⟩
  intro h0
  rw [h0] at h1
  simp at h1

/-- Claim C6: for every entry whose menu-display text is a canonical
function-call pattern `name(arg1, arg2, ...)` (newline-free name; nonempty,
comma/parenthesis/newline-free arguments without surrounding whitespace)
and whose insertion text is a non-empty string, `text()` returns the
insertion text followed by numbered snippet placeholders, one per
comma-separated argument; and for every entry with no insertion text set
(and a menu text that is absent or a string) it returns the empty string
after logging, without raising. -/
theorem completionText_spec :
    (∀ (o : CompletionOption) (nameC : List Char) (args : List (List Char)) (it : String),
      o.menu_text = some (.str (String.mk (specFuncMenuText nameC args))) →
      o.insertion_text = some (.str it) →
      charMem '\n' nameC = false →
      args ≠ [] →
      (∀ a ∈ args, specArgOk a = true) →
      it.data ≠ [] →
      o.text = .ok (.str (specFuncText it args))) ∧
    (∀ o : CompletionOption,
      truthyOpt o.insertion_text = false →
      (o.menu_text = none ∨ ∃ s, o.menu_text = some (.str s)) →
      o.text = .ok (.str "")) := by
  constructor
  · intro o nameC args it hmt hins hname hargsne hargs hit
    obtain ⟨a0, rest, rfl⟩ : ∃ a0 rest, args = a0 :: rest := by
      cases args with
      | nil => exact absurd rfl hargsne
      | cons a0 rest => exact ⟨a0, rest, rfl⟩
    have ha0 := specArgOk_unpack a0 (hargs a0 (by simp))
    have hBnl : charMem '\n' (intercalateC [',', ' '] (a0 :: rest)) = false :=
      charMem_intercalateC '\n' _ (by decide)
        (fun a ha => (specArgOk_unpack a (hargs a ha)).2.2.2.2.1)
    have hBo : charMem '(' (intercalateC [',', ' '] (a0 :: rest)) = false :=
      charMem_intercalateC '(' _ (by decide)
        (fun a ha => (specArgOk_unpack a (hargs a ha)).2.2.1)
    have hBne : intercalateC [',', ' '] (a0 :: rest) ≠ [] :=
      intercalateC_ne_nil a0 rest ha0.1
    have hLnl : charMem '\n'
        (nameC ++ '(' :: (intercalateC [',', ' '] (a0 :: rest) ++ [')'])) = false := by
      rw [charMem_append, hname, charMem, charMem_append, hBnl, charMem]
      decide
    have hwclose : charMem ')' (intercalateC [',', ' '] (a0 :: rest) ++ [')']) = true := by
      rw [charMem_append, charMem]
      simp
    have hfunc := isFuncMatch_canonical nameC _ hLnl hwclose
    have hgroup := group1_canonical nameC _ hLnl hBo hBne
    have hsplit := pySplitChar_intercalate a0 rest ha0.2.1
      (fun a ha => (specArgOk_unpack a (hargs a (by simp [ha]))).2.1)
    have hstrip0 : pyStrip a0 = a0 :=
      pyStrip_clean a0 ha0.1 ha0.2.2.2.2.2.1 ha0.2.2.2.2.2.2
    have hstripr : ∀ a ∈ rest, pyStrip a = a := by
      intro a ha
      have h := specArgOk_unpack a (hargs a (by simp [ha]))
      exact pyStrip_clean a h.1 h.2.2.2.2.2.1 h.2.2.2.2.2.2
    have hph := placeholdersFrom_canonical a0 rest hstrip0 hstripr
    have htolist : (String.mk (specFuncMenuText nameC (a0 :: rest))).toList =
        nameC ++ '(' :: (intercalateC [',', ' '] (a0 :: rest) ++ [')']) := rfl
    have hparam : paramList (String.mk (specFuncMenuText nameC (a0 :: rest))).toList =
        specPlaceholders 1 (a0 :: rest) := by
      rw [htolist, paramList]
      simp only [hgroup, hsplit, hph]
    have hfunc' : isFuncMatch (String.mk (specFuncMenuText nameC (a0 :: rest))).toList
        = true := by
      rw [htolist]
      exact hfunc
    have htr : truthy (.str (String.mk (specFuncMenuText nameC (a0 :: rest)))) = true := by
      show (!(specFuncMenuText nameC (a0 :: rest)).isEmpty) = true
      rw [specFuncMenuText]
      cases nameC <;> rfl
    have htri : truthyOpt (some (.str it)) = true := by
      show (!it.data.isEmpty) = true
      cases hd : it.data with
      | nil => exact absurd hd hit
      | cons c cs => rfl
    unfold CompletionOption.text
    rw [hmt, hins]
    simp only [htr, if_true, hfunc', hparam, htri]
    simp [specFuncText]
  · intro o hins hmt
    rcases hmt with h | ⟨s, h⟩
    · simp [CompletionOption.text, h, hins]
    · by_cases htr : truthy (.str s) = true
      · simp [CompletionOption.text, h, hins, htr]
      · simp [CompletionOption.text, h, hins, Bool.eq_false_iff.mpr htr]

/-- Witness for claim C6: menu text `"foo(a, b)"` with insertion text
`"foo"` yields `"foo($\x7b1:a\x7d, $\x7b2:b\x7d)"`, and an uninitialized
entry yields the empty string. -/
theorem completionText_spec_witness :
    exampleOptFunc.menu_text =
      some (.str (String.mk (specFuncMenuText "foo".toList [['a'], ['b']]))) ∧
    (∀ a ∈ [['a'], ['b']], specArgOk a = true) ∧
    exampleOptFunc.text = .ok (.str (specFuncText "foo" [['a'], ['b']])) ∧
    specFuncText "foo" [['a'], ['b']] = "foo($\x7b1:a\x7d, $\x7b2:b\x7d)" ∧
    exampleOptNoInsertion.text = .ok (.str "") :=
  ⟨rfl, by decide,
    completionText_spec.1 exampleOptFunc "foo".toList [['a'], ['b']] "foo"
      rfl rfl (by decide) (by decide) (by decide) (by decide),
    rfl,
    completionText_spec.2 exampleOptNoInsertion rfl (Or.inl rfl)⟩
